import Mathlib

/-!
Marketplace front-end: the detail view `Right` and the page root `Marketplace`

A shallow embedding of

* `frontend/src/components/marketplace/AppPage/Right.jsx` (the detail view), and
* `frontend/src/react/pages/marketplace.jsx` (the page module and its root component),

followed by the properties of their `render` methods and of the page module's
load sequence.

JSX is read as the `React.createElement` calls it stands for: an element is a
record of its type, its `key`, its remaining attributes and its children, and
the expressions between braces are evaluated left to right.
-/

namespace Uclapi

/-! ## JavaScript values -/

/-- The data that reaches the components: JSON data plus `undefined`.
Such values carry no functions and no getters. -/
inductive Value where
  | undefined : Value
  | null : Value
  | bool (b : Bool) : Value
  | num (n : Int) : Value
  | str (s : String) : Value
  | arr (items : List Value) : Value
  | obj (fields : List (String × Value)) : Value

/-- The exception a failing property read or call raises (`TypeError`). -/
inductive Fault where
  | typeError : Fault
  deriving DecidableEq, Repr

/-- Property read `v.k`, for the property names the components read
(`app`, `name`, `detailedDescription`, `screenshots`), none of which is a built-in
member of a boolean, number, string or array: reading from `undefined` or
`null` throws, an object yields its own field or `undefined`, every other
value yields `undefined`. -/
def Value.get : Value → String → Except Fault Value
  | .undefined, _ => .error .typeError
  | .null, _ => .error .typeError
  | .obj fields, k => .ok ((fields.lookup k).getD .undefined)
  | _, _ => .ok .undefined

/-- Method call `v.map(f)` with `f` receiving `(item, index)`: on an array it is
`Array.prototype.map`; on `undefined` and `null` the property read throws, and
on every other value of the data universe `v.map` is not callable, which throws
as well. -/
def Value.map {β : Type} : Value → (Value → Nat → β) → Except Fault (List β)
  | .arr items, f => .ok (items.mapIdx (fun i item => f item i))
  | _, _ => .error .typeError

/-- Whether the value is an object with an own field `k`; when it is not, the
read `v.k` finds nothing. -/
def Value.has : Value → String → Bool
  | .obj fields, k => (fields.lookup k).isSome
  | _, _ => false

/-- Whether a value is `undefined` or `null`. -/
def Value.isNullish : Value → Bool
  | .undefined => true
  | .null => true
  | _ => false

/-- Whether React renders nothing for the value in child position
(`undefined`, `null`, `true` and `false` are skipped). -/
def Value.isEmptyChild : Value → Bool
  | .undefined => true
  | .null => true
  | .bool _ => true
  | _ => false

/-! ## Rendered trees -/

/-- What `render` returns: an element (`type`, `key`, the remaining attributes,
and `props.children` read as a list) or a plain value in child position. -/
inductive Node where
  | value (v : Value) : Node
  | element (type : String) (key : Option Nat) (attrs : List (String × Value))
      (children : List Node) : Node

/-- Whether the node is an element. -/
def Node.isElement : Node → Bool
  | .element _ _ _ _ => true
  | .value _ => false

/-- The element type (tag) of a node, if it is an element. -/
def Node.type? : Node → Option String
  | .element t _ _ _ => some t
  | .value _ => none

/-- The key of a node. -/
def Node.key? : Node → Option Nat
  | .element _ k _ _ => k
  | .value _ => none

/-- Attribute `a` of a node. -/
def Node.attr? : Node → String → Option Value
  | .element _ _ attrs _, a => attrs.lookup a
  | .value _, _ => none

/-- The children of a node. -/
def Node.children : Node → List Node
  | .element _ _ _ cs => cs
  | .value _ => []

/-- Whether the node is an element of class `c`. -/
def Node.hasClass (c : String) : Node → Bool
  | .element _ _ attrs _ =>
    match attrs.lookup "className" with
    | some (.str s) => s == c
    | _ => false
  | .value _ => false

/-- Whether React renders nothing for the node. -/
def Node.isEmpty : Node → Bool
  | .value v => v.isEmptyChild
  | .element _ _ _ _ => false

/-- The children React renders: the children without the empty ones. -/
def Node.content (n : Node) : List Node :=
  n.children.filter (fun c => !c.isEmpty)

/-! ## `Right.jsx` -/

/-- An instance of the component `Right`: `this.props`, an object. -/
structure Right where
  props : List (String × Value)

namespace Right

/-- The read `this.props.app`: the prop `app`, or `undefined` when it was not
passed. -/
def app (this : Right) : Value :=
  (this.props.lookup "app").getD .undefined

/-- The element `<img src={link} key={i} />` of `Right.jsx`, line 13. -/
def img (link : Value) (i : Nat) : Node :=
  .element "img" (some i) [("src", link)] []

/-- The method `Right.render` (`Right.jsx`, lines 6-18) in state-passing form: the state
is the component instance, the result the returned tree. -/
def render : StateT Right (Except Fault) Node := do
  let this ← get
  let name ← this.app.get "name"
  let detailedDescription ← this.app.get "detailedDescription"
  let screenshots ← this.app.get "screenshots"
  let imgs ← screenshots.map img
  return .element "div" none [("className", .str "right")]
    [ .element "h1" none [] [.value name],
      .value detailedDescription,
      .element "div" none [("className", .str "imgWrapper")] imgs ]

/-- The tree a render of `c` returns, or the fault it throws. -/
def output (c : Right) : Except Fault Node :=
  (render.run c).map Prod.fst

/-- Two renders in sequence, the second from the state the first leaves;
returns both trees. -/
def renderTwice : StateT Right (Except Fault) (Node × Node) := do
  let first ← render
  let second ← render
  return (first, second)

/-- The gallery container of a rendered tree: the first child of the root that
has class `imgWrapper`. -/
def gallery? (root : Node) : Option Node :=
  root.children.find? (Node.hasClass "imgWrapper")

/-- The tree `render` returns for the values `name` and `detailedDescription`
and the gallery children `imgs`; used to state what `render` returns. -/
def layout (name detailedDescription : Value) (imgs : List Node) : Node :=
  .element "div" none [("className", .str "right")]
    [ .element "h1" none [] [.value name],
      .value detailedDescription,
      .element "div" none [("className", .str "imgWrapper")] imgs ]

/-- A component instance whose only prop is `app`. -/
def ofApp (app : Value) : Right := ⟨[("app", app)]⟩

/-- The record of the end-to-end scenario. -/
def widget : Value :=
  .obj [("name", .str "Widget"), ("detailedDescription", .str "A useful widget"),
        ("screenshots", .arr [.str "a.png", .str "b.png"])]

end Right

/-! ## `marketplace.jsx` -/

/-- The `palette` object passed to `getMuiTheme` (lines 16-29). -/
structure Palette where
  primary1Color : String
  primary2Color : String
  primary3Color : String
  accent1Color : String
  accent2Color : String
  accent3Color : String
  textColor : String
  alternateTextColor : String
  canvasColor : String
  borderColor : String
  pickerHeaderColor : String
  shadowColor : String
  deriving DecidableEq, Repr

/-- The argument of `getMuiTheme` (lines 14-30). -/
structure ThemeConfig where
  fontFamily : String
  palette : Palette
  deriving DecidableEq, Repr

/-- The constants imported from `material-ui/styles/colors` (lines 3-6); their
values belong to the library and are taken as a parameter. -/
structure Colors where
  cyan500 : String
  cyan700 : String
  pinkA200 : String
  grey100 : String
  grey300 : String
  grey400 : String
  grey500 : String
  white : String
  darkBlack : String
  fullBlack : String
  deriving DecidableEq, Repr

/-- A theme object: `id` tells the objects built by different calls of
`getMuiTheme` apart (the `id`-th call built it), `config` is what it was built
from. -/
structure Theme where
  id : Nat
  config : ThemeConfig
  deriving DecidableEq, Repr

/-- The elements the page module builds. -/
inductive PageNode where
  | marketplace : PageNode
  | marketplaceComponent : PageNode
  | muiThemeProvider (muiTheme : Theme) (children : List PageNode) : PageNode

/-- The calls the page module makes into its libraries and the document. -/
inductive Call where
  | getMuiTheme : Call
  | injectTapEventPlugin : Call
  | querySelector (selector : String) : Call
  | reactDomRender : Call
  deriving DecidableEq, Repr

/-- The state outside the page module: how many theme objects were built, how
many times the tap-event plugin was registered, how many times a tree was
mounted, the calls made so far in order, and what is mounted (the container's
selector, the root element, and the tree its last render returned). -/
structure World where
  themeBuilds : Nat
  tapRegistrations : Nat
  mounts : Nat
  calls : List Call
  mounted : Option (String × PageNode × PageNode)

/-- The world before the page module is loaded. -/
def World.start : World :=
  { themeBuilds := 0, tapRegistrations := 0, mounts := 0, calls := [], mounted := none }

/-- The library call `getMuiTheme(config)`: builds a new theme object. -/
def getMuiTheme (config : ThemeConfig) : StateM World Theme := do
  let w ← get
  set { w with themeBuilds := w.themeBuilds + 1, calls := w.calls ++ [Call.getMuiTheme] }
  return { id := w.themeBuilds, config := config }

/-- The library call `injectTapEventPlugin()`: registers the plugin. -/
def injectTapEventPlugin : StateM World Unit :=
  modify fun w =>
    { w with tapRegistrations := w.tapRegistrations + 1,
             calls := w.calls ++ [Call.injectTapEventPlugin] }

/-- The call `document.querySelector(selector)`; the page is taken to contain
the anchor, which is returned by its selector. -/
def querySelector (selector : String) : StateM World String := do
  modify fun w => { w with calls := w.calls ++ [Call.querySelector selector] }
  return selector

/-- The module-level bindings of `marketplace.jsx` that `Marketplace` closes
over. -/
structure Module where
  muiTheme : Theme

namespace Marketplace

/-- The method `Marketplace.render` (`marketplace.jsx`, lines 38-44): a theme
provider around one `MarketplaceComponent`, with the module-level `muiTheme`. -/
def render (m : Module) : StateM World PageNode :=
  return .muiThemeProvider m.muiTheme [.marketplaceComponent]

/-- The first `n` re-renders of the root after the mount; returns the trees in
order. -/
def rerender (m : Module) : Nat → StateM World (List PageNode)
  | 0 => return []
  | n + 1 => do
    let tree ← render m
    let rest ← rerender m n
    return tree :: rest

end Marketplace

/-- The library call `ReactDOM.render(element, container)` for the root
element `<Marketplace />`: the library renders the root once and mounts the
result into the container. -/
def reactDomRender (m : Module) (element : PageNode) (container : String) :
    StateM World Unit := do
  modify fun w => { w with calls := w.calls ++ [Call.reactDomRender] }
  let tree ← Marketplace.render m
  modify fun w => { w with mounts := w.mounts + 1, mounted := some (container, element, tree) }

/-- The theme configuration of `marketplace.jsx`, lines 14-30. -/
def themeConfig (colors : Colors) : ThemeConfig :=
  { fontFamily := "Roboto, sans-serif",
    palette :=
      { primary1Color := "#434343",
        primary2Color := "#434343",
        primary3Color := colors.grey400,
        accent1Color := colors.pinkA200,
        accent2Color := colors.grey100,
        accent3Color := colors.grey500,
        textColor := colors.darkBlack,
        alternateTextColor := colors.white,
        canvasColor := colors.white,
        borderColor := colors.grey300,
        pickerHeaderColor := colors.cyan500,
        shadowColor := colors.fullBlack } }

/-- The statements of `marketplace.jsx` before the mount (lines 14-34): build
the theme, register the tap-event plugin. -/
def loadBeforeMount (colors : Colors) : StateM World Module := do
  let muiTheme ← getMuiTheme (themeConfig colors)
  injectTapEventPlugin
  return { muiTheme := muiTheme }

/-- Loading the module `marketplace.jsx` (lines 14-51): the statements before
the mount, then `ReactDOM.render(<Marketplace />, document.querySelector(...))`
with the selector of the root anchor. -/
def load (colors : Colors) : StateM World Module := do
  let m ← loadBeforeMount colors
  let container ← querySelector "#root"
  reactDomRender m .marketplace container
  return m

/-- The module-level bindings after loading the module in world `w`. -/
def pageModule (colors : Colors) (w : World) : Module :=
  (Id.run ((load colors).run w)).1

/-- The world after loading the module in world `w`. -/
def afterLoad (colors : Colors) (w : World) : World :=
  (Id.run ((load colors).run w)).2

/-- The world after the statements before the mount, run in world `w`. -/
def beforeMount (colors : Colors) (w : World) : World :=
  (Id.run ((loadBeforeMount colors).run w)).2

/-- The trees the first `n` re-renders after the load return. -/
def rerenderTrees (colors : Colors) (w : World) (n : Nat) : List PageNode :=
  (Id.run ((Marketplace.rerender (pageModule colors w) n).run (afterLoad colors w))).1

/-- The world after the load and `n` re-renders. -/
def afterRerenders (colors : Colors) (w : World) (n : Nat) : World :=
  (Id.run ((Marketplace.rerender (pageModule colors w) n).run (afterLoad colors w))).2

/-! ## Properties of `Right.render` -/

namespace Right

theorem render_run (c : Right) :
    render.run c =
      (c.app.get "name" >>= fun name =>
       c.app.get "detailedDescription" >>= fun d =>
       c.app.get "screenshots" >>= fun s =>
       s.map img >>= fun imgs =>
       (pure (layout name d imgs, c) : Except Fault (Node × Right))) := by
  unfold render layout
  cases h1 : c.app.get "name" <;> cases h2 : c.app.get "detailedDescription" <;>
    cases h3 : c.app.get "screenshots" <;>
    simp [StateT.run, bind, StateT.bind, Except.bind, get, getThe, MonadStateOf.get, StateT.get,
      pure, Except.pure, liftM, monadLift, MonadLift.monadLift, StateT.lift, h1, h2, h3,
      StateT.pure]
  rename_i s
  cases h4 : s.map img <;> simp

theorem get_cases (v : Value) (k : String) :
    (v.isNullish = true ∧ v.get k = .error .typeError) ∨
    (v.isNullish = false ∧ ∃ x, v.get k = .ok x) := by
  cases v <;> simp [Value.isNullish, Value.get]

theorem get_ok_of_get_ok {v : Value} {k : String} {x : Value} (h : v.get k = .ok x)
    (k' : String) : ∃ y, v.get k' = .ok y := by
  rcases get_cases v k with ⟨_, e⟩ | ⟨hn, _⟩
  · rw [e] at h; cases h
  · rcases get_cases v k' with ⟨hn', _⟩ | ⟨_, y, hy⟩
    · rw [hn] at hn'; cases hn'
    · exact ⟨y, hy⟩

theorem render_run_ok (c : Right) (name d : Value) (links : List Value)
    (hn : c.app.get "name" = .ok name) (hd : c.app.get "detailedDescription" = .ok d)
    (hs : c.app.get "screenshots" = .ok (.arr links)) :
    render.run c = .ok (layout name d (links.mapIdx fun i link => img link i), c) := by
  rw [render_run, hn, hd, hs]
  rfl

theorem render_run_of_screenshots (c : Right) (links : List Value)
    (hs : c.app.get "screenshots" = .ok (.arr links)) :
    ∃ name d, c.app.get "name" = .ok name ∧ c.app.get "detailedDescription" = .ok d ∧
      render.run c = .ok (layout name d (links.mapIdx fun i link => img link i), c) := by
  obtain ⟨name, hn⟩ := get_ok_of_get_ok hs "name"
  obtain ⟨d, hd⟩ := get_ok_of_get_ok hs "detailedDescription"
  exact ⟨name, d, hn, hd, render_run_ok c name d links hn hd hs⟩

theorem render_run_cases (c : Right) :
    (∃ name d links, c.app.get "name" = .ok name ∧ c.app.get "detailedDescription" = .ok d ∧
        c.app.get "screenshots" = .ok (.arr links) ∧
        render.run c = .ok (layout name d (links.mapIdx fun i link => img link i), c)) ∨
    (render.run c = .error .typeError ∧
      (c.app.isNullish = true ∨ ∀ links, c.app.get "screenshots" ≠ .ok (.arr links))) := by
  rcases get_cases c.app "name" with ⟨hnull, e⟩ | ⟨hnull, name, hn⟩
  · right
    refine ⟨?_, Or.inl hnull⟩
    rw [render_run, e]; rfl
  · obtain ⟨d, hd⟩ := get_ok_of_get_ok hn "detailedDescription"
    obtain ⟨s, hs⟩ := get_ok_of_get_ok hn "screenshots"
    by_cases harr : ∃ links, s = .arr links
    · obtain ⟨links, rfl⟩ := harr
      exact Or.inl ⟨name, d, links, hn, hd, hs, render_run_ok c name d links hn hd hs⟩
    · right
      constructor
      · rw [render_run, hn, hd, hs]
        cases s <;> first | rfl | exact absurd ⟨_, rfl⟩ harr
      · right
        intro links h
        rw [hs] at h
        exact harr ⟨links, by injection h⟩

theorem output_ok (c : Right) (t : Node) (h : render.run c = .ok (t, c)) :
    output c = .ok t := by
  simp [output, h, Except.map]

theorem gallery_layout (name d : Value) (imgs : List Node) :
    gallery? (layout name d imgs) =
      some (.element "div" none [("className", .str "imgWrapper")] imgs) := by
  simp [gallery?, layout, Node.children, List.find?, Node.hasClass, List.lookup]

theorem keys_mapIdx (links : List Value) :
    (links.mapIdx fun i link => img link i).map Node.key? =
      (List.range links.length).map some := by
  apply List.ext_getElem
  · simp
  · intro i h1 h2
    simp [img, Node.key?]

theorem output_eq (c : Right) :
    output c =
      (c.app.get "name" >>= fun name =>
       c.app.get "detailedDescription" >>= fun d =>
       c.app.get "screenshots" >>= fun s =>
       s.map img >>= fun imgs =>
       (pure (layout name d imgs) : Except Fault Node)) := by
  rw [output, render_run]
  cases c.app.get "name" <;> cases c.app.get "detailedDescription" <;>
    cases c.app.get "screenshots" <;> try rfl
  rename_i s
  simp only [bind, Except.bind]
  cases s.map img <;> rfl

theorem output_error (c : Right) (h : render.run c = .error .typeError) :
    output c = .error .typeError := by
  simp [output, h, Except.map]

theorem get_undefined_of_not_has {v : Value} {k : String} {x : Value}
    (h : v.get k = .ok x) (hk : v.has k = false) : x = .undefined := by
  cases v with
  | obj fields =>
    simp only [Value.get, Value.has] at h hk
    cases hl : fields.lookup k with
    | none =>
      rw [hl] at h
      injection h with h
      exact h.symm
    | some y =>
      rw [hl] at hk
      cases hk
  | _ =>
    simp only [Value.get] at h
    first
      | (injection h with h; exact h.symm)
      | cases h

theorem renderTwice_run (c : Right) :
    renderTwice.run c =
      (render.run c >>= fun r => render.run r.2 >>= fun r' =>
        (pure ((r.1, r'.1), r'.2) : Except Fault ((Node × Node) × Right))) := by
  rfl

/-- C1: when `screenshots` is a list of `n` links, `render` returns a tree whose
gallery container (the `div` of class `imgWrapper`) is present and has exactly
`n` children, all `img` elements, the `i`-th with `src` the `i`-th link; for the
empty list this is a container without children, and nothing is thrown. -/
theorem gallery_images (c : Right) (links : List Value)
    (hs : c.app.get "screenshots" = .ok (.arr links)) :
    ∃ root g, output c = .ok root ∧ gallery? root = some g ∧ g ∈ root.children ∧
      g.type? = some "div" ∧ g.attr? "className" = some (.str "imgWrapper") ∧
      g.children.length = links.length ∧
      (∀ n ∈ g.children, n.type? = some "img") ∧
      ∀ (i : Nat) (hi : i < links.length),
        ∃ n, g.children[i]? = some n ∧ n.type? = some "img" ∧
          n.attr? "src" = some links[i] := by
  obtain ⟨name, d, -, -, hrun⟩ := render_run_of_screenshots c links hs
  refine ⟨_, _, output_ok c _ hrun, gallery_layout _ _ _, ?_, rfl, rfl, ?_, ?_, ?_⟩
  · simp [layout, Node.children]
  · simp [Node.children]
  · intro n hn
    simp only [Node.children] at hn
    obtain ⟨i, hi, rfl⟩ := List.getElem_of_mem hn
    simp [img, Node.type?]
  · intro i hi
    refine ⟨img links[i] i, ?_, rfl, rfl⟩
    simp [Node.children, List.getElem?_eq_getElem hi]

/-- The record of the end-to-end scenario has a list of two screenshots, and
its gallery has the two images in order. -/
theorem gallery_images_witness :
    (ofApp widget).app.get "screenshots" = .ok (.arr [.str "a.png", .str "b.png"]) ∧
    ∃ root g, output (ofApp widget) = .ok root ∧ gallery? root = some g ∧
      g ∈ root.children ∧
      g.type? = some "div" ∧ g.attr? "className" = some (.str "imgWrapper") ∧
      g.children.length = [Value.str "a.png", Value.str "b.png"].length ∧
      (∀ n ∈ g.children, n.type? = some "img") ∧
      ∀ (i : Nat) (hi : i < [Value.str "a.png", Value.str "b.png"].length),
        ∃ n, g.children[i]? = some n ∧ n.type? = some "img" ∧
          n.attr? "src" = some [Value.str "a.png", Value.str "b.png"][i] :=
  ⟨rfl, gallery_images (ofApp widget) [.str "a.png", .str "b.png"] rfl⟩

/-- C2: for a record with name `N`, description `D` and a list of screenshots,
`render` returns a single root element whose children are, in this order, an
`h1` whose only content is `N`, then `D`, then the gallery container with one
image per link. -/
theorem render_structure (c : Right) (N D : Value) (links : List Value)
    (hn : c.app.get "name" = .ok N) (hd : c.app.get "detailedDescription" = .ok D)
    (hs : c.app.get "screenshots" = .ok (.arr links)) :
    output c = .ok
      (.element "div" none [("className", .str "right")]
        [ .element "h1" none [] [.value N],
          .value D,
          .element "div" none [("className", .str "imgWrapper")]
            (links.mapIdx fun i link => img link i) ]) :=
  output_ok c _ (render_run_ok c N D links hn hd hs)

/-- The end-to-end scenario: heading "Widget", then "A useful widget", then a
gallery of two images with `src` "a.png" and "b.png" in that order. -/
theorem render_structure_witness :
    (ofApp widget).app.get "name" = .ok (.str "Widget") ∧
    (ofApp widget).app.get "detailedDescription" = .ok (.str "A useful widget") ∧
    (ofApp widget).app.get "screenshots" = .ok (.arr [.str "a.png", .str "b.png"]) ∧
    output (ofApp widget) = .ok
      (.element "div" none [("className", .str "right")]
        [ .element "h1" none [] [.value (.str "Widget")],
          .value (.str "A useful widget"),
          .element "div" none [("className", .str "imgWrapper")]
            [ .element "img" (some 0) [("src", .str "a.png")] [],
              .element "img" (some 1) [("src", .str "b.png")] [] ] ]) :=
  ⟨rfl, rfl, rfl,
    render_structure (ofApp widget) (.str "Widget") (.str "A useful widget")
      [.str "a.png", .str "b.png"] rfl rfl rfl⟩

/-- C3, as stated, fails: for the record of the end-to-end scenario the second
child of the root is the description text itself, a plain value and not an
element, so not every child of the root is an element. -/
theorem description_block_counterexample :
    ∃ root, output (ofApp widget) = .ok root ∧
      root.children[1]? = some (.value (.str "A useful widget")) ∧
      root.children.map Node.isElement = [true, false, true] ∧
      ¬ (∀ n ∈ root.children, n.isElement = true) := by
  refine ⟨layout (.str "Widget") (.str "A useful widget")
    [img (.str "a.png") 0, img (.str "b.png") 1], rfl, rfl, rfl, ?_⟩
  intro h
  have := h (.value (.str "A useful widget")) (by simp [layout, Node.children])
  simp [Node.isElement] at this

/-- C3, amended: whenever `render` returns a tree, the root has exactly three
children: the `h1` element holding the name, then the value of
`detailedDescription` itself as a direct child of the root (not inside an
element of its own), then the gallery element. -/
theorem description_direct_child (c : Right) (root : Node) (h : output c = .ok root) :
    ∃ N D imgs, c.app.get "name" = .ok N ∧ c.app.get "detailedDescription" = .ok D ∧
      root.children =
        [ .element "h1" none [] [.value N],
          .value D,
          .element "div" none [("className", .str "imgWrapper")] imgs ] ∧
      root.children.map Node.isElement = [true, false, true] := by
  rcases render_run_cases c with ⟨N, D, links, hn, hd, -, hrun⟩ | ⟨herr, -⟩
  · rw [output_ok c _ hrun] at h
    injection h with h
    subst h
    exact ⟨N, D, _, hn, hd, rfl, rfl⟩
  · simp [output, herr, Except.map] at h

/-- The render of the record of the end-to-end scenario returns a tree, whose
second child is the description itself. -/
theorem description_direct_child_witness :
    output (ofApp widget) = .ok (layout (.str "Widget") (.str "A useful widget")
      [img (.str "a.png") 0, img (.str "b.png") 1]) ∧
    ∃ N D imgs, (ofApp widget).app.get "name" = .ok N ∧
      (ofApp widget).app.get "detailedDescription" = .ok D ∧
      (layout (.str "Widget") (.str "A useful widget")
          [img (.str "a.png") 0, img (.str "b.png") 1]).children =
        [ .element "h1" none [] [.value N],
          .value D,
          .element "div" none [("className", .str "imgWrapper")] imgs ] ∧
      (layout (.str "Widget") (.str "A useful widget")
          [img (.str "a.png") 0, img (.str "b.png") 1]).children.map Node.isElement =
        [true, false, true] :=
  ⟨rfl, description_direct_child (ofApp widget) _ rfl⟩

/-- C4: the `i`-th image carries the key `i`, so the keys of the gallery's
children are exactly `0, ..., n-1` in increasing order and pairwise distinct,
whatever the links are. -/
theorem gallery_keys (c : Right) (links : List Value)
    (hs : c.app.get "screenshots" = .ok (.arr links)) :
    ∃ root g, output c = .ok root ∧ gallery? root = some g ∧
      g.children.length = links.length ∧
      (∀ i, i < links.length → (g.children[i]?).bind Node.key? = some i) ∧
      g.children.map Node.key? = (List.range links.length).map some ∧
      (g.children.map Node.key?).Nodup := by
  obtain ⟨name, d, -, -, hrun⟩ := render_run_of_screenshots c links hs
  refine ⟨_, _, output_ok c _ hrun, gallery_layout _ _ _, ?_, ?_, ?_, ?_⟩
  · simp [Node.children]
  · intro i hi
    simp [Node.children, List.getElem?_eq_getElem hi, img, Node.key?]
  · exact keys_mapIdx links
  · simp only [Node.children]
    rw [keys_mapIdx]
    exact (List.nodup_range _).map (Option.some_injective _)

/-- A record whose two links are the same: the keys are still 0 and 1. -/
theorem gallery_keys_witness :
    (ofApp (.obj [("screenshots", .arr [.str "a.png", .str "a.png"])])).app.get "screenshots"
      = .ok (.arr [.str "a.png", .str "a.png"]) ∧
    ∃ root g, output (ofApp (.obj [("screenshots", .arr [.str "a.png", .str "a.png"])]))
        = .ok root ∧ gallery? root = some g ∧
      g.children.length = [Value.str "a.png", Value.str "a.png"].length ∧
      (∀ i, i < [Value.str "a.png", Value.str "a.png"].length →
        (g.children[i]?).bind Node.key? = some i) ∧
      g.children.map Node.key? =
        (List.range [Value.str "a.png", Value.str "a.png"].length).map some ∧
      (g.children.map Node.key?).Nodup :=
  ⟨rfl, gallery_keys _ [.str "a.png", .str "a.png"] rfl⟩

/-- C5: `render` throws if and only if the record is absent (`undefined` or
`null`) or its `screenshots` is not a sequence; whenever `screenshots` is a
sequence it returns the usual tree, also when `name` or `detailedDescription`
is absent, and an absent field reads as `undefined`, for which nothing is
rendered: the heading has no content, respectively the root's content is just
the heading and the gallery. -/
theorem render_fails_iff (c : Right) :
    (output c = .error .typeError ↔
      (c.app.isNullish = true ∨ ∀ links, c.app.get "screenshots" ≠ .ok (.arr links))) ∧
    ∀ links, c.app.get "screenshots" = .ok (.arr links) →
      ∃ N D h g root, c.app.get "name" = .ok N ∧ c.app.get "detailedDescription" = .ok D ∧
        h = .element "h1" none [] [.value N] ∧
        g = .element "div" none [("className", .str "imgWrapper")]
              (links.mapIdx fun i link => img link i) ∧
        root = .element "div" none [("className", .str "right")] [h, .value D, g] ∧
        output c = .ok root ∧
        (c.app.has "name" = false → N = .undefined ∧ h.content = []) ∧
        (c.app.has "detailedDescription" = false → D = .undefined ∧ root.content = [h, g]) := by
  constructor
  · constructor
    · intro h
      rcases render_run_cases c with ⟨N, D, links, -, -, -, hrun⟩ | ⟨-, hcause⟩
      · rw [output_ok c _ hrun] at h
        cases h
      · exact hcause
    · intro h
      rcases render_run_cases c with ⟨N, D, links, hn, -, hs, -⟩ | ⟨herr, -⟩
      · rcases h with h | h
        · rcases get_cases c.app "name" with ⟨-, e⟩ | ⟨hnn, -⟩
          · rw [e] at hn; cases hn
          · rw [h] at hnn; cases hnn
        · exact absurd hs (h links)
      · exact output_error c herr
  · intro links hs
    obtain ⟨N, D, hn, hd, hrun⟩ := render_run_of_screenshots c links hs
    refine ⟨N, D, _, _, _, hn, hd, rfl, rfl, rfl, output_ok c _ hrun, ?_, ?_⟩
    · intro hk
      have hN := get_undefined_of_not_has hn hk
      subst hN
      exact ⟨rfl, rfl⟩
    · intro hk
      have hD := get_undefined_of_not_has hd hk
      subst hD
      exact ⟨rfl, rfl⟩

/-- A record that has only `screenshots`: the render succeeds, the heading is
empty and no description is rendered. -/
theorem render_fails_iff_witness :
    (ofApp (.obj [("screenshots", .arr [.str "a.png"])])).app.get "screenshots"
      = .ok (.arr [.str "a.png"]) ∧
    (ofApp (.obj [("screenshots", .arr [.str "a.png"])])).app.has "name" = false ∧
    (ofApp (.obj [("screenshots", .arr [.str "a.png"])])).app.has "detailedDescription"
      = false ∧
    ∃ N D h g root,
      (ofApp (.obj [("screenshots", .arr [.str "a.png"])])).app.get "name" = .ok N ∧
      (ofApp (.obj [("screenshots", .arr [.str "a.png"])])).app.get "detailedDescription"
        = .ok D ∧
      h = .element "h1" none [] [.value N] ∧
      g = .element "div" none [("className", .str "imgWrapper")]
            ([Value.str "a.png"].mapIdx fun i link => img link i) ∧
      root = .element "div" none [("className", .str "right")] [h, .value D, g] ∧
      output (ofApp (.obj [("screenshots", .arr [.str "a.png"])])) = .ok root ∧
      (N = .undefined ∧ h.content = []) ∧
      (D = .undefined ∧ root.content = [h, g]) := by
  refine ⟨rfl, rfl, rfl, ?_⟩
  obtain ⟨N, D, h, g, root, hn, hd, hh, hg, hroot, hout, h1, h2⟩ :=
    (render_fails_iff (ofApp (.obj [("screenshots", .arr [.str "a.png"])]))).2
      [.str "a.png"] rfl
  exact ⟨N, D, h, g, root, hn, hd, hh, hg, hroot, hout, h1 rfl, h2 rfl⟩

/-- C6: two renders in sequence with the record unchanged return the same tree
twice: the pair of renders throws exactly when a single render does, and
otherwise both trees are the tree of the single render. -/
theorem render_deterministic (c : Right) :
    renderTwice.run c = (render.run c).map fun r => ((r.1, r.1), r.2) := by
  rw [renderTwice_run]
  rcases render_run_cases c with ⟨N, D, links, -, -, -, hrun⟩ | ⟨herr, -⟩
  · simp [hrun, bind, Except.bind, Except.map, pure, Except.pure]
  · simp [herr, bind, Except.bind, Except.map]

/-- C7: a render that returns leaves the component instance as it was: the
props, and with them the record and its three fields, are unchanged. -/
theorem render_preserves_instance (c c' : Right) (t : Node)
    (h : render.run c = .ok (t, c')) :
    c' = c ∧ c'.props = c.props ∧ c'.app = c.app ∧
      c'.app.get "name" = c.app.get "name" ∧
      c'.app.get "detailedDescription" = c.app.get "detailedDescription" ∧
      c'.app.get "screenshots" = c.app.get "screenshots" := by
  have hc : c' = c := by
    rcases render_run_cases c with ⟨N, D, links, -, -, -, hrun⟩ | ⟨herr, -⟩
    · rw [hrun] at h
      injection h with h
      injection h with _ h2
      exact h2.symm
    · rw [herr] at h
      cases h
  subst hc
  exact ⟨rfl, rfl, rfl, rfl, rfl, rfl⟩

/-- The render of the record of the end-to-end scenario returns, and leaves
the instance as it was. -/
theorem render_preserves_instance_witness :
    render.run (ofApp widget) =
      .ok (layout (.str "Widget") (.str "A useful widget")
        [img (.str "a.png") 0, img (.str "b.png") 1], ofApp widget) ∧
    (ofApp widget = ofApp widget ∧ (ofApp widget).props = (ofApp widget).props ∧
      (ofApp widget).app = (ofApp widget).app ∧
      (ofApp widget).app.get "name" = (ofApp widget).app.get "name" ∧
      (ofApp widget).app.get "detailedDescription" =
        (ofApp widget).app.get "detailedDescription" ∧
      (ofApp widget).app.get "screenshots" = (ofApp widget).app.get "screenshots") :=
  ⟨rfl, render_preserves_instance (ofApp widget) (ofApp widget) _ rfl⟩

/-- C10: two component instances whose records agree on the reads of `name`,
`detailedDescription` and `screenshots` render the same tree (or both throw),
whatever else the records and the props hold. -/
theorem render_depends_on_three_fields (c d : Right)
    (hn : c.app.get "name" = d.app.get "name")
    (hd : c.app.get "detailedDescription" = d.app.get "detailedDescription")
    (hs : c.app.get "screenshots" = d.app.get "screenshots") :
    output c = output d := by
  rw [output_eq, output_eq, hn, hd, hs]

/-- The record of the end-to-end scenario with two more fields, passed with a
second prop, renders as the record alone does. -/
theorem render_depends_on_three_fields_witness :
    (Right.mk [("onClose", .null), ("app", .obj [("id", .num 7), ("name", .str "Widget"),
        ("category", .str "tools"), ("detailedDescription", .str "A useful widget"),
        ("screenshots", .arr [.str "a.png", .str "b.png"])])]).app.get "name"
      = (ofApp widget).app.get "name" ∧
    (Right.mk [("onClose", .null), ("app", .obj [("id", .num 7), ("name", .str "Widget"),
        ("category", .str "tools"), ("detailedDescription", .str "A useful widget"),
        ("screenshots", .arr [.str "a.png", .str "b.png"])])]).app.get "detailedDescription"
      = (ofApp widget).app.get "detailedDescription" ∧
    (Right.mk [("onClose", .null), ("app", .obj [("id", .num 7), ("name", .str "Widget"),
        ("category", .str "tools"), ("detailedDescription", .str "A useful widget"),
        ("screenshots", .arr [.str "a.png", .str "b.png"])])]).app.get "screenshots"
      = (ofApp widget).app.get "screenshots" ∧
    output (Right.mk [("onClose", .null), ("app", .obj [("id", .num 7), ("name", .str "Widget"),
        ("category", .str "tools"), ("detailedDescription", .str "A useful widget"),
        ("screenshots", .arr [.str "a.png", .str "b.png"])])])
      = output (ofApp widget) :=
  ⟨rfl, rfl, rfl, render_depends_on_three_fields _ _ rfl rfl rfl⟩

end Right

/-! ## Properties of the page module -/

namespace Marketplace

theorem provider_run (m : Module) (w : World) :
    Id.run ((render m).run w) =
      (PageNode.muiThemeProvider m.muiTheme [PageNode.marketplaceComponent], w) :=
  rfl

theorem rerender_trees_run (m : Module) (n : Nat) (w : World) :
    Id.run ((rerender m n).run w) =
      (List.replicate n
        (PageNode.muiThemeProvider m.muiTheme [PageNode.marketplaceComponent]), w) := by
  induction n with
  | zero => rfl
  | succ n ih =>
    have h : Id.run ((rerender m (n + 1)).run w) =
        ((Id.run ((render m).run w)).1 ::
            (Id.run ((rerender m n).run (Id.run ((render m).run w)).2)).1,
          (Id.run ((rerender m n).run (Id.run ((render m).run w)).2)).2) := rfl
    rw [h, provider_run, ih]
    rfl

end Marketplace

/-- C8: the theme is built once, when the module is loaded, from the static
font family and palette, and never again: every call of `Marketplace.render`,
in any world, returns a theme provider whose `muiTheme` is that module-level
theme object and whose only child is one `MarketplaceComponent` element, and
changes nothing; the mount and every re-render pass that same theme. -/
theorem theme_built_once (colors : Colors) (w₀ w : World) (n : Nat) :
    (pageModule colors w₀).muiTheme =
      { id := w₀.themeBuilds, config := themeConfig colors } ∧
    (pageModule colors w₀).muiTheme.config.fontFamily = "Roboto, sans-serif" ∧
    (pageModule colors w₀).muiTheme.config.palette.primary1Color = "#434343" ∧
    (pageModule colors w₀).muiTheme.config.palette.primary3Color = colors.grey400 ∧
    (afterLoad colors w₀).themeBuilds = w₀.themeBuilds + 1 ∧
    Id.run ((Marketplace.render (pageModule colors w₀)).run w) =
      (PageNode.muiThemeProvider (pageModule colors w₀).muiTheme
        [PageNode.marketplaceComponent], w) ∧
    (afterLoad colors w₀).mounted =
      some ("#root", PageNode.marketplace,
        PageNode.muiThemeProvider (pageModule colors w₀).muiTheme
          [PageNode.marketplaceComponent]) ∧
    rerenderTrees colors w₀ n =
      List.replicate n
        (PageNode.muiThemeProvider (pageModule colors w₀).muiTheme
          [PageNode.marketplaceComponent]) ∧
    (afterRerenders colors w₀ n).themeBuilds = w₀.themeBuilds + 1 ∧
    (afterRerenders colors World.start n).themeBuilds = 1 := by
  have hr : ∀ v : World, afterRerenders colors v n = afterLoad colors v := by
    intro v
    simp only [afterRerenders, Marketplace.rerender_trees_run]
  refine ⟨rfl, rfl, rfl, rfl, rfl, rfl, rfl, ?_, ?_, ?_⟩
  · simp only [rerenderTrees, Marketplace.rerender_trees_run]
  · rw [hr]; rfl
  · rw [hr]; rfl

/-- C9: loading the page module registers the tap-event plugin exactly once,
before the mount, and mounts the root exactly once; `Marketplace.render`
leaves the world as it is, so after any number of re-renders the count of
registrations is still the one of the load: 1 when the load starts from the
initial world. -/
theorem tap_plugin_registered_once (colors : Colors) (w₀ w : World) (n : Nat) :
    (beforeMount colors w₀).tapRegistrations = w₀.tapRegistrations + 1 ∧
    (beforeMount colors w₀).mounts = w₀.mounts ∧
    (afterLoad colors w₀).tapRegistrations = w₀.tapRegistrations + 1 ∧
    (afterLoad colors w₀).mounts = w₀.mounts + 1 ∧
    (afterLoad colors w₀).calls =
      w₀.calls ++ [Call.getMuiTheme, Call.injectTapEventPlugin,
        Call.querySelector "#root", Call.reactDomRender] ∧
    (Id.run ((Marketplace.render (pageModule colors w₀)).run w)).2 = w ∧
    afterRerenders colors w₀ n = afterLoad colors w₀ ∧
    (afterRerenders colors w₀ n).tapRegistrations = w₀.tapRegistrations + 1 ∧
    (afterLoad colors World.start).tapRegistrations = 1 ∧
    (afterLoad colors World.start).mounts = 1 ∧
    (afterRerenders colors World.start n).tapRegistrations = 1 := by
  have hr : ∀ v : World, afterRerenders colors v n = afterLoad colors v := by
    intro v
    simp only [afterRerenders, Marketplace.rerender_trees_run]
  refine ⟨rfl, rfl, rfl, rfl, ?_, rfl, hr w₀, ?_, rfl, rfl, ?_⟩
  · show ((w₀.calls ++ [Call.getMuiTheme]) ++ [Call.injectTapEventPlugin]
      ++ [Call.querySelector "#root"]) ++ [Call.reactDomRender] = _
    simp
  · rw [hr]; rfl
  · rw [hr]; rfl

end Uclapi
